import Mathlib

/-!
Shallow embedding of `app/tts_handler.py` (openai-edge-tts).

Modelling conventions:
* Python strings are `List Char`; string literals are written `"...".data`.
* Python `int` is `Int`; Python `float` is modelled by `ℚ` (the speed values the
  design exercises, such as `1.0`, `1.5`, `0.5`, are exactly representable).
* The regular expression
  `([a-zA-Z]{2}-[A-Z]{2}-[a-zA-Z0-9]+)(?:([+-]\d+)[rR])?(?:([+-]\d+)[pP])?`
  used by `re.match` is embedded as a deterministic prefix matcher: the base
  group is a maximal alphanumeric munch (no backtracking into it can ever be
  required, because both delta groups are optional and start with a sign
  character, which is not alphanumeric), and each optional delta group matches
  exactly when a sign, a non-empty maximal digit run and the marker letter
  follow (backtracking inside `\d+` cannot help, since the marker letters are
  not digits).  `\d` is modelled as an ASCII digit.
* Fallible calls are `Except`/`Option`; spawned background work is recorded in
  the result record rather than executed.
-/

set_option maxRecDepth 10000

/-- ASCII letter or digit: the character class `[a-zA-Z0-9]` of the voice-name
segment (`Char.isAlpha`/`Char.isDigit` are the ASCII ranges). -/
def isAlnumChar (c : Char) : Bool := c.isAlpha || c.isDigit

/-- Numeric value of one ASCII digit character. -/
def digitVal (c : Char) : Nat := c.toNat - ('0').toNat

/-- Value of a digit string, as Python `int` computes it on the sign-stripped
text (leading zeros allowed). -/
def digitsVal (ds : List Char) : Nat := ds.foldl (fun a c => 10 * a + digitVal c) 0

/-- The decimal digit character for `n < 10`. -/
def digitChar10 (n : Nat) : Char :=
  if n = 0 then '0' else if n = 1 then '1' else if n = 2 then '2' else if n = 3 then '3'
  else if n = 4 then '4' else if n = 5 then '5' else if n = 6 then '6' else if n = 7 then '7'
  else if n = 8 then '8' else '9'

/-- Fuelled decimal rendering: each step strips the last digit, and a fuel of
`n + 1` always suffices.  (The fuel makes the recursion structural, so the
definition evaluates by kernel reduction.) -/
def toDecimalAux (fuel n : Nat) : List Char :=
  match fuel with
  | 0 => []
  | fuel' + 1 =>
    if n < 10 then [digitChar10 n]
    else toDecimalAux fuel' (n / 10) ++ [digitChar10 (n % 10)]

/-- Decimal rendering of a natural number, as Python `str` renders it. -/
def toDecimal (n : Nat) : List Char := toDecimalAux (n + 1) n

/-- Maximal run of ASCII digits at the head of the list (the `\d+` munch). -/
def takeDigits : List Char → List Char × List Char
  | [] => ([], [])
  | c :: cs =>
    if c.isDigit = true then
      let p := takeDigits cs
      (c :: p.1, p.2)
    else ([], c :: cs)

/-- Maximal run of alphanumeric characters at the head of the list
(the `[a-zA-Z0-9]+` munch of the voice-name segment). -/
def takeAlnum : List Char → List Char × List Char
  | [] => ([], [])
  | c :: cs =>
    if isAlnumChar c = true then
      let p := takeAlnum cs
      (c :: p.1, p.2)
    else ([], c :: cs)

/-- The base-voice group of the regex:
`([a-zA-Z]{2}-[A-Z]{2}-[a-zA-Z0-9]+)` matched at the start of the string.
Returns the matched characters and the unconsumed remainder. -/
def matchBase : List Char → Option (List Char × List Char)
  | l1 :: l2 :: h1 :: u1 :: u2 :: h2 :: rest =>
    if h1 = '-' ∧ h2 = '-' ∧ l1.isAlpha = true ∧ l2.isAlpha = true ∧
        u1.isUpper = true ∧ u2.isUpper = true then
      let p := takeAlnum rest
      if p.1 = [] then none
      else some (l1 :: l2 :: h1 :: u1 :: u2 :: h2 :: p.1, p.2)
    else none
  | _ => none

/-- One optional delta group of the regex, `(?:([+-]\d+)[mM])?` for marker
letters `m1`/`m2`: matches exactly when a sign, a non-empty digit run and one
of the marker letters follow.  Returns the sign character, the digit run and
the remainder after the marker. -/
def matchDelta (m1 m2 : Char) : List Char → Option ((Char × List Char) × List Char)
  | c :: cs =>
    if c = '+' ∨ c = '-' then
      let p := takeDigits cs
      match p.2 with
      | m :: rest =>
        if p.1 ≠ [] ∧ (m = m1 ∨ m = m2) then some ((c, p.1), rest) else none
      | [] => none
    else none
  | [] => none

/-- Python `int` applied to the sign character plus digit run. -/
def intVal (sign : Char) (ds : List Char) : Int :=
  if sign = '-' then -(digitsVal ds : Int) else (digitsVal ds : Int)

/-- `parse_voice_string` (tts_handler.py lines 60-87): match the voice regex
against the string; on no match return the string itself with no deltas; on a
match, a delta whose value lies outside `-99..99` is discarded (set to `none`),
mirroring the two bounds checks. -/
def parse_voice_string (voice_string : List Char) :
    List Char × Option Int × Option Int :=
  match matchBase voice_string with
  | none => (voice_string, none, none)
  | some bp =>
    let r1 := matchDelta ('r') ('R') bp.2
    let rest2 := match r1 with
      | some x => x.2
      | none => bp.2
    let p1 := matchDelta ('p') ('P') rest2
    let rate_change := r1.bind (fun x =>
      let v := intVal x.1.1 x.1.2
      if -99 ≤ v ∧ v ≤ 99 then some v else none)
    let pitch_change := p1.bind (fun x =>
      let v := intVal x.1.1 x.1.2
      if -99 ≤ v ∧ v ≤ 99 then some v else none)
    (bp.1, rate_change, pitch_change)

/-- The characters of a base voice id: two letters, hyphen, two uppercase
letters, hyphen, then a voice-name segment. -/
def baseChars (l1 l2 u1 u2 : Char) (name : List Char) : List Char :=
  l1 :: l2 :: '-' :: u1 :: u2 :: '-' :: name

/-- Well-formedness of the pieces of a base voice id with respect to the regex
character classes. -/
def wfBase (l1 l2 u1 u2 : Char) (name : List Char) : Prop :=
  l1.isAlpha = true ∧ l2.isAlpha = true ∧ u1.isUpper = true ∧ u2.isUpper = true ∧
    name ≠ [] ∧ ∀ c ∈ name, isAlnumChar c = true

instance wfBaseDecidable (l1 l2 u1 u2 : Char) (name : List Char) :
    Decidable (wfBase l1 l2 u1 u2 name) := by
  unfold wfBase
  infer_instance

/-- The sign character Python renders in front of a signed integer written in a
voice string (an explicit sign is mandatory in the `[+-]\d+` groups). -/
def signChar (d : Int) : Char := if d < 0 then '-' else '+'

/-- The textual form `<sign><digits><marker>` of one delta group. -/
def deltaChars (d : Int) (marker : Char) : List Char :=
  signChar d :: toDecimal d.natAbs ++ [marker]

/-- Zero or one delta group, textually. -/
def optDeltaChars (d : Option Int) (marker : Char) : List Char :=
  match d with
  | none => []
  | some v => deltaChars v marker

/-- `str(int)` rendering of a Python integer. -/
def intChars (z : Int) : List Char :=
  if z < 0 then ('-') :: toDecimal z.natAbs else toDecimal z.natAbs

/-- Rounding to an integer with ties to even, as the `.0f` float format
performs on the (rationally modelled) value. -/
def roundHalfEven (q : ℚ) : Int :=
  let f := Int.fdiv q.num (q.den : Int)
  let rem : ℚ := q - (f : ℚ)
  if rem < 1 / 2 then f
  else if (1 : ℚ) / 2 < rem then f + 1
  else if f % 2 = 0 then f else f + 1

/-- `speed_to_rate` (tts_handler.py lines 264-275): compute
`(speed - 1) * 100` and render it through the Python format `"{:+.0f}%"`:
rounded to an integer, with a mandatory sign and no decimal places. -/
def speed_to_rate (speed : ℚ) : List Char :=
  let percentage_change := (speed - 1) * 100
  let n := roundHalfEven percentage_change
  (if 0 ≤ n then ('+') :: toDecimal n.natAbs else ('-') :: toDecimal n.natAbs) ++ [('%')]

/-- The pitch string of tts_handler.py line 157-159: `"+0Hz"` when no pitch
delta was parsed, otherwise `f"{sign}{pitch_change}Hz"` where the explicit
`'+'` is prepended only for non-negative values (negative values carry the
minus sign of `str(int)`). -/
def computePitchValue (pitch_change : Option Int) : List Char :=
  match pitch_change with
  | none => "+0Hz".data
  | some p => (if 0 ≤ p then "+".data else []) ++ intChars p ++ "Hz".data

/-- The rate string of tts_handler.py lines 156 and 161-162: the speed-derived
default, overridden by `f"{sign}{rate_change}%"` when a rate delta was
parsed. -/
def computeRateValue (default_speed : ℚ) (rate_change : Option Int) : List Char :=
  match rate_change with
  | none => speed_to_rate default_speed
  | some r => (if 0 ≤ r then "+".data else []) ++ intChars r ++ "%".data

/-- Lines 144-148: `voice.endswith('+s')` detection and `voice[:-2]`
stripping, returning the `save_output` flag and the remaining string. -/
def stripSave (voice : List Char) : Bool × List Char :=
  match voice.reverse with
  | c1 :: c2 :: rest =>
    if c1 = 's' ∧ c2 = '+' then (true, rest.reverse) else (false, voice)
  | _ => (false, voice)

/-- Line 151: `voice_mapping.get(voice, voice)` over an association list. -/
def lookupDefault (m : List (List Char × List Char)) (k : List Char) : List Char :=
  match m.lookup k with
  | some v => v
  | none => k

/-- The voice spec derived from a raw request voice string: save flag,
base voice id, rate delta, pitch delta (lines 144-154). -/
def voiceSpecOf (m : List (List Char × List Char)) (voice : List Char) :
    Bool × (List Char × Option Int × Option Int) :=
  let sv := stripSave voice
  (sv.1, parse_voice_string (lookupDefault m sv.2))

/-- Line 196-202: the codec dictionary `.get(response_format, "aac")`. -/
def codecFor (response_format : List Char) : List Char :=
  if response_format = "aac".data then "aac".data
  else if response_format = "mp3".data then "libmp3lame".data
  else if response_format = "wav".data then "pcm_s16le".data
  else if response_format = "opus".data then "libopus".data
  else if response_format = "flac".data then "flac".data
  else "aac".data

/-- Line 204-210: the container dictionary `.get(response_format, response_format)`. -/
def containerFor (response_format : List Char) : List Char :=
  if response_format = "aac".data then "mp4".data
  else if response_format = "mp3".data then "mp3".data
  else if response_format = "wav".data then "wav".data
  else if response_format = "opus".data then "ogg".data
  else if response_format = "flac".data then "flac".data
  else response_format

/-- Lines 193-213: the argv list handed to `subprocess.run`.  Each slot is an
`Option` because the Python expression `"192k" if response_format != "wav"
else None` places the value `None` (not an absent element) in the list when
the target format is wav. -/
def ffmpeg_command (inputName response_format outputName : List Char) :
    List (Option (List Char)) :=
  [some ("ffmpeg".data), some ("-i".data), some inputName,
   some ("-c:a".data), some (codecFor response_format),
   some ("-b:a".data),
   if response_format = "wav".data then none else some ("192k".data),
   some ("-f".data), some (containerFor response_format),
   some ("-y".data), some outputName]

/-- The exception kinds `_generate_audio` can raise to its caller. -/
inductive GenError
  /-- the edge-tts `communicator.save` call raised (lines 168-177) -/
  | synthesisError
  /-- `subprocess.run`/`str.join` raised `TypeError` because the argv list
  contains `None`; not caught by the `except CalledProcessError` handler -/
  | typeError
  /-- `RuntimeError` re-raised from `CalledProcessError` (lines 219-221) -/
  | transcodeError

deriving DecidableEq

/-- The environment of one request: process state and outcomes of the
external effects the handler performs. -/
structure Env where
  /-- the table loaded from voice_mappings.json (line 50) -/
  voiceMapping : List (List Char × List Char)
  /-- whether the `ffmpeg -version` probe succeeds (lines 52-58) -/
  ffmpegInstalled : Bool
  /-- whether `communicator.save` succeeds (line 176) -/
  synthOk : Bool
  /-- whether the ffmpeg conversion process exits zero (line 217) -/
  transcodeExitOk : Bool
  /-- whether `shutil.copy2` succeeds inside `_save_audio_file` (line 116) -/
  copyOk : Bool
  /-- name of the synthesis `NamedTemporaryFile` (line 164) -/
  tempName : List Char
  /-- name of the converted `NamedTemporaryFile` (line 190) -/
  convName : List Char
  /-- the timestamped output filename `_save_audio_file` builds (lines 108-112) -/
  outName : List Char

deriving DecidableEq

/-- Result of `_save_audio_file` (lines 102-138): the value returned to the
(awaiting) caller, and the temp paths handed to `_delayed_cleanup` by the
`finally` clause. -/
structure SaveOutcome where
  returned : Option (List Char)
  cleanupScheduled : List (List Char)

deriving DecidableEq

/-- `_save_audio_file`: when `save_output` is false it returns the temp path
at line 106 before the `try/finally`, so no cleanup is scheduled; otherwise
the copy is attempted (failure returns `None` at line 120) and the `finally`
clause always schedules `_delayed_cleanup(temp_file_path)` (line 138). -/
def save_audio_file (temp_file_path : List Char) (save_output : Bool)
    (copyOk : Bool) (output_filename : List Char) : SaveOutcome :=
  if save_output = false then { returned := some temp_file_path, cleanupScheduled := [] }
  else if copyOk = false then { returned := none, cleanupScheduled := [temp_file_path] }
  else { returned := some output_filename, cleanupScheduled := [temp_file_path] }

deriving instance DecidableEq for Except

/-- Observable outcome of one `_generate_audio` run. -/
structure GenOutcome where
  /-- returned path, or the exception propagated to the caller -/
  result : Except GenError (List Char)
  /-- temp files created by `tempfile.NamedTemporaryFile` -/
  created : List (List Char)
  /-- contents of `TEMP_FILES` when the call returns or raises -/
  tempFilesAfter : List (List Char)
  /-- paths handed to `_delayed_cleanup` by spawned `_save_audio_file` tasks -/
  cleanupScheduled : List (List Char)
  /-- the argv list built for the conversion, when that point is reached -/
  ffmpegCmd : Option (List (Option (List Char)))
  /-- whether the external ffmpeg process was actually started -/
  ffmpegInvoked : Bool
  /-- whether the `FFmpeg is not available` warning was logged (line 187) -/
  warnedNoFfmpeg : Bool
  /-- voice, rate and pitch strings handed to `edge_tts.Communicate` (169-174) -/
  synthCall : Option (List Char × List Char × List Char)
  /-- the `save_output` flag parsed from the voice string -/
  saveRequested : Bool

deriving DecidableEq

/-- `_generate_audio` (tts_handler.py lines 140-233), step for step:
strip `+s` (144-148), alias lookup (151), parse (154), rate/pitch strings
(156-162), create and track the temp file (164-165), synthesize (168-177,
exception handler 229-233 discards only the synthesis temp from
`TEMP_FILES` and re-raises), the mp3 short-circuit (179-184), the missing
ffmpeg fallback (186-188), the converted temp file (190-191), the argv list
(193-213) whose `None` slot makes `subprocess.run`/`join` raise `TypeError`
(uncaught by the `except CalledProcessError` at 219, hence propagated),
non-zero exit re-raised as `RuntimeError` (219-221), and the save/return
tail (223-227). -/
def generate_audio (env : Env) (text voice response_format : List Char)
    (default_speed : ℚ) : GenOutcome :=
  let sv := stripSave voice
  let save_output := sv.1
  let base_voice_name := lookupDefault env.voiceMapping sv.2
  let parsed := parse_voice_string base_voice_name
  let rate_value := computeRateValue default_speed parsed.2.1
  let pitch_value := computePitchValue parsed.2.2
  let call := some (parsed.1, rate_value, pitch_value)
  if env.synthOk = false then
    { result := Except.error GenError.synthesisError, created := [env.tempName],
      tempFilesAfter := [], cleanupScheduled := [], ffmpegCmd := none,
      ffmpegInvoked := false, warnedNoFfmpeg := false, synthCall := call,
      saveRequested := save_output }
  else if response_format = "mp3".data then
    if save_output = true then
      { result := Except.ok env.tempName, created := [env.tempName],
        tempFilesAfter := [env.tempName],
        cleanupScheduled :=
          (save_audio_file env.tempName true env.copyOk env.outName).cleanupScheduled,
        ffmpegCmd := none, ffmpegInvoked := false, warnedNoFfmpeg := false,
        synthCall := call, saveRequested := save_output }
    else
      { result := Except.ok env.tempName, created := [env.tempName],
        tempFilesAfter := [env.tempName], cleanupScheduled := [], ffmpegCmd := none,
        ffmpegInvoked := false, warnedNoFfmpeg := false, synthCall := call,
        saveRequested := save_output }
  else if env.ffmpegInstalled = false then
    { result := Except.ok env.tempName, created := [env.tempName],
      tempFilesAfter := [env.tempName], cleanupScheduled := [], ffmpegCmd := none,
      ffmpegInvoked := false, warnedNoFfmpeg := true, synthCall := call,
      saveRequested := save_output }
  else
    let cmd := ffmpeg_command env.tempName response_format env.convName
    if cmd.any Option.isNone then
      { result := Except.error GenError.typeError,
        created := [env.tempName, env.convName],
        tempFilesAfter := [env.convName], cleanupScheduled := [],
        ffmpegCmd := some cmd, ffmpegInvoked := false, warnedNoFfmpeg := false,
        synthCall := call, saveRequested := save_output }
    else if env.transcodeExitOk = false then
      { result := Except.error GenError.transcodeError,
        created := [env.tempName, env.convName],
        tempFilesAfter := [env.convName], cleanupScheduled := [],
        ffmpegCmd := some cmd, ffmpegInvoked := true, warnedNoFfmpeg := false,
        synthCall := call, saveRequested := save_output }
    else if save_output = true then
      { result := Except.ok env.convName,
        created := [env.tempName, env.convName],
        tempFilesAfter := [env.tempName, env.convName],
        cleanupScheduled :=
          (save_audio_file env.convName true env.copyOk env.outName).cleanupScheduled,
        ffmpegCmd := some cmd, ffmpegInvoked := true, warnedNoFfmpeg := false,
        synthCall := call, saveRequested := save_output }
    else
      { result := Except.ok env.convName,
        created := [env.tempName, env.convName],
        tempFilesAfter := [env.tempName, env.convName], cleanupScheduled := [],
        ffmpegCmd := some cmd, ffmpegInvoked := true, warnedNoFfmpeg := false,
        synthCall := call, saveRequested := save_output }

/-- `generate_speech` (lines 235-240): run `_generate_audio`, catch every
exception and turn it into `None`. -/
def generate_speech (env : Env) (text voice response_format : List Char)
    (speed : ℚ) : Option (List Char) :=
  match (generate_audio env text voice response_format speed).result with
  | Except.ok p => some p
  | Except.error _ => none

/-- Modelled from the spec: the top-level caller of `generate_speech` (the
HTTP endpoint of this repository, which is not part of the handler module)
triggers delayed cleanup of the returned temp artifact when persistence was
not requested — spec section 4.5: persistence short-circuits before
scheduling when save is not requested, "so cleanup must instead be triggered
by the top-level caller in that path". -/
def topLevelCleanup (o : GenOutcome) : List (List Char) :=
  match o.result with
  | Except.ok p => if o.saveRequested = false then [p] else []
  | Except.error _ => []

/-- All temp paths that are ever handed to the delayed reaper for a request:
those scheduled inside the handler plus the spec-modelled top-level one.
Under normal operation the reaper unlinks each of these and discards it from
`TEMP_FILES`, so a created artifact is eventually removed from disk and from
the tracked set exactly when it appears in this list. -/
def totalCleanup (o : GenOutcome) : List (List Char) :=
  o.cleanupScheduled ++ topLevelCleanup o

/-- A concrete environment: every external effect succeeds, ffmpeg present,
empty alias table. -/
def env0 : Env :=
  { voiceMapping := [], ffmpegInstalled := true, synthOk := true,
    transcodeExitOk := true, copyOk := true, tempName := "tmpsynth.mp3".data,
    convName := "tmpconv.out".data, outName := "saved.out".data }

/-- The all-success environment with the transcoding tool absent. -/
def envNoFF : Env := { env0 with ffmpegInstalled := false }

theorem digitVal_digitChar10 (n : Nat) (h : n < 10) : digitVal (digitChar10 n) = n := by
  interval_cases n <;> decide

theorem digitChar10_isDigit (n : Nat) (h : n < 10) : (digitChar10 n).isDigit = true := by
  interval_cases n <;> decide

theorem digitsVal_append_singleton (xs : List Char) (c : Char) :
    digitsVal (xs ++ [c]) = 10 * digitsVal xs + digitVal c := by
  simp [digitsVal, List.foldl_append]

theorem digitsVal_toDecimalAux (fuel : Nat) :
    ∀ n, n < fuel → digitsVal (toDecimalAux fuel n) = n := by
  induction fuel with
  | zero =>
    intro n h
    omega
  | succ f ih =>
    intro n h
    by_cases h10 : n < 10
    · simp [toDecimalAux, h10, digitsVal, digitVal_digitChar10 n h10]
    · have hf : n / 10 < f := by omega
      simp only [toDecimalAux, if_neg h10]
      rw [digitsVal_append_singleton, ih (n / 10) hf,
        digitVal_digitChar10 (n % 10) (by omega)]
      omega

theorem digitsVal_toDecimal (n : Nat) : digitsVal (toDecimal n) = n :=
  digitsVal_toDecimalAux (n + 1) n (by omega)

theorem toDecimalAux_ne_nil (fuel n : Nat) (h : n < fuel) : toDecimalAux fuel n ≠ [] := by
  cases fuel with
  | zero => omega
  | succ f =>
    by_cases h10 : n < 10 <;> simp [toDecimalAux, h10]

theorem toDecimal_ne_nil (n : Nat) : toDecimal n ≠ [] :=
  toDecimalAux_ne_nil (n + 1) n (by omega)

theorem toDecimalAux_digits (fuel : Nat) :
    ∀ n, n < fuel → ∀ c ∈ toDecimalAux fuel n, c.isDigit = true := by
  induction fuel with
  | zero =>
    intro n h
    omega
  | succ f ih =>
    intro n h c hc
    by_cases h10 : n < 10
    · simp only [toDecimalAux, if_pos h10, List.mem_singleton] at hc
      subst hc
      exact digitChar10_isDigit n h10
    · have hf : n / 10 < f := by omega
      simp only [toDecimalAux, if_neg h10, List.mem_append, List.mem_singleton] at hc
      rcases hc with hc | hc
      · exact ih (n / 10) hf c hc
      · subst hc
        exact digitChar10_isDigit (n % 10) (by omega)

theorem toDecimal_digits (n : Nat) : ∀ c ∈ toDecimal n, c.isDigit = true :=
  toDecimalAux_digits (n + 1) n (by omega)

theorem takeDigits_append (xs ys : List Char) (hxs : ∀ c ∈ xs, c.isDigit = true)
    (hys : ∀ c, ys.head? = some c → c.isDigit = false) :
    takeDigits (xs ++ ys) = (xs, ys) := by
  induction xs with
  | nil =>
    cases ys with
    | nil => rfl
    | cons c cs => simp [takeDigits, hys c rfl]
  | cons c cs ih =>
    have hc : c.isDigit = true := hxs c (by simp)
    have ih' := ih (fun d hd => hxs d (by simp [hd]))
    simp [takeDigits, hc, ih']

theorem takeAlnum_append (xs ys : List Char) (hxs : ∀ c ∈ xs, isAlnumChar c = true)
    (hys : ∀ c, ys.head? = some c → isAlnumChar c = false) :
    takeAlnum (xs ++ ys) = (xs, ys) := by
  induction xs with
  | nil =>
    cases ys with
    | nil => rfl
    | cons c cs => simp [takeAlnum, hys c rfl]
  | cons c cs ih =>
    have hc : isAlnumChar c = true := hxs c (by simp)
    have ih' := ih (fun d hd => hxs d (by simp [hd]))
    simp [takeAlnum, hc, ih']

theorem signChar_cases (d : Int) : signChar d = '+' ∨ signChar d = '-' := by
  by_cases h : d < 0 <;> simp [signChar, h]

theorem isAlnumChar_signChar (d : Int) : isAlnumChar (signChar d) = false := by
  rcases signChar_cases d with h | h <;> rw [h] <;> decide

theorem intVal_signChar_toDecimal (d : Int) :
    intVal (signChar d) (toDecimal d.natAbs) = d := by
  by_cases h : d < 0
  · have hs : signChar d = '-' := by simp [signChar, h]
    rw [hs, intVal, if_pos rfl, digitsVal_toDecimal]
    omega
  · have hs : signChar d = '+' := by simp [signChar, h]
    rw [hs, intVal, if_neg (by decide), digitsVal_toDecimal]
    omega

theorem matchBase_append (l1 l2 u1 u2 : Char) (name ys : List Char)
    (hwf : wfBase l1 l2 u1 u2 name)
    (hys : ∀ c, ys.head? = some c → isAlnumChar c = false) :
    matchBase (baseChars l1 l2 u1 u2 name ++ ys) =
      some (baseChars l1 l2 u1 u2 name, ys) := by
  obtain ⟨hl1, hl2, hu1, hu2, hne, hmem⟩ := hwf
  have hrw : baseChars l1 l2 u1 u2 name ++ ys =
      l1 :: l2 :: '-' :: u1 :: u2 :: '-' :: (name ++ ys) := by
    simp [baseChars]
  rw [hrw]
  simp [matchBase, takeAlnum_append name ys hmem hys, hl1, hl2, hu1, hu2, hne, baseChars]

theorem matchDelta_append (m1 m2 s m : Char) (ds ys : List Char)
    (hs : s = '+' ∨ s = '-') (hne : ds ≠ []) (hds : ∀ c ∈ ds, c.isDigit = true)
    (hm : m = m1 ∨ m = m2) (hmd : m.isDigit = false) :
    matchDelta m1 m2 (s :: ds ++ m :: ys) = some ((s, ds), ys) := by
  have ht : takeDigits (ds ++ m :: ys) = (ds, m :: ys) :=
    takeDigits_append ds (m :: ys) hds (fun c hc => by
      simp only [List.head?_cons, Option.some.injEq] at hc
      subst hc
      exact hmd)
  simp [matchDelta, ht, hs, hne, hm]

theorem matchDelta_none_of_marker (m1 m2 s m : Char) (ds ys : List Char)
    (hds : ∀ c ∈ ds, c.isDigit = true)
    (hm1 : m ≠ m1) (hm2 : m ≠ m2) (hmd : m.isDigit = false) :
    matchDelta m1 m2 (s :: ds ++ m :: ys) = none := by
  have ht : takeDigits (ds ++ m :: ys) = (ds, m :: ys) :=
    takeDigits_append ds (m :: ys) hds (fun c hc => by
      simp only [List.head?_cons, Option.some.injEq] at hc
      subst hc
      exact hmd)
  by_cases hs : s = '+' ∨ s = '-'
  · simp [matchDelta, ht, hs, hm1, hm2]
  · simp [matchDelta, hs]

theorem matchDelta_nil (m1 m2 : Char) : matchDelta m1 m2 [] = none := rfl

theorem deltaChars_shape (d : Int) (marker : Char) (t : List Char) :
    deltaChars d marker ++ t = signChar d :: toDecimal d.natAbs ++ marker :: t := by
  simp [deltaChars]

theorem head_not_alnum_deltaChars (d : Int) (marker : Char) (t : List Char) :
    ∀ c, (deltaChars d marker ++ t).head? = some c → isAlnumChar c = false := by
  intro c hc
  rw [deltaChars_shape] at hc
  simp only [List.cons_append, List.head?_cons, Option.some.injEq] at hc
  subst hc
  exact isAlnumChar_signChar d

theorem parse_voice_append_both (l1 l2 u1 u2 : Char) (name : List Char) (r p : Int)
    (t : List Char) (hwf : wfBase l1 l2 u1 u2 name)
    (hr : r.natAbs ≤ 99) (hp : p.natAbs ≤ 99) :
    parse_voice_string
        (baseChars l1 l2 u1 u2 name ++ deltaChars r ('r') ++ deltaChars p ('p') ++ t) =
      (baseChars l1 l2 u1 u2 name, some r, some p) := by
  rw [List.append_assoc, List.append_assoc]
  have hB := matchBase_append l1 l2 u1 u2 name
    (deltaChars r ('r') ++ (deltaChars p ('p') ++ t)) hwf
    (head_not_alnum_deltaChars r ('r') (deltaChars p ('p') ++ t))
  have hR : matchDelta ('r') ('R') (deltaChars r ('r') ++ (deltaChars p ('p') ++ t)) =
      some ((signChar r, toDecimal r.natAbs), deltaChars p ('p') ++ t) := by
    rw [deltaChars_shape]
    exact matchDelta_append _ _ _ _ _ _ (signChar_cases r) (toDecimal_ne_nil _)
      (toDecimal_digits _) (Or.inl rfl) (by decide)
  have hP : matchDelta ('p') ('P') (deltaChars p ('p') ++ t) =
      some ((signChar p, toDecimal p.natAbs), t) := by
    rw [deltaChars_shape]
    exact matchDelta_append _ _ _ _ _ _ (signChar_cases p) (toDecimal_ne_nil _)
      (toDecimal_digits _) (Or.inl rfl) (by decide)
  have hrb : -99 ≤ r ∧ r ≤ 99 := by omega
  have hpb : -99 ≤ p ∧ p ≤ 99 := by omega
  simp [parse_voice_string, hB, hR, hP, intVal_signChar_toDecimal, hrb, hpb]

theorem parse_voice_append_opt (l1 l2 u1 u2 : Char) (name : List Char)
    (ro po : Option Int) (hwf : wfBase l1 l2 u1 u2 name)
    (hr : ∀ v, ro = some v → v.natAbs ≤ 99) (hp : ∀ v, po = some v → v.natAbs ≤ 99) :
    parse_voice_string
        (baseChars l1 l2 u1 u2 name ++ optDeltaChars ro ('r') ++ optDeltaChars po ('p')) =
      (baseChars l1 l2 u1 u2 name, ro, po) := by
  cases ro with
  | some r =>
    cases po with
    | some p =>
      simpa [optDeltaChars] using
        parse_voice_append_both l1 l2 u1 u2 name r p [] hwf (hr r rfl) (hp p rfl)
    | none =>
      have hB := matchBase_append l1 l2 u1 u2 name (deltaChars r ('r') ++ []) hwf
        (head_not_alnum_deltaChars r ('r') [])
      have hR : matchDelta ('r') ('R') (deltaChars r ('r') ++ []) =
          some ((signChar r, toDecimal r.natAbs), []) := by
        rw [deltaChars_shape]
        exact matchDelta_append _ _ _ _ _ _ (signChar_cases r) (toDecimal_ne_nil _)
          (toDecimal_digits _) (Or.inl rfl) (by decide)
      have hrb : -99 ≤ r ∧ r ≤ 99 := by
        have := hr r rfl
        omega
      have hB' : matchBase (baseChars l1 l2 u1 u2 name ++ deltaChars r ('r')) =
          some (baseChars l1 l2 u1 u2 name, deltaChars r ('r')) := by simpa using hB
      have hR' : matchDelta ('r') ('R') (deltaChars r ('r')) =
          some ((signChar r, toDecimal r.natAbs), []) := by simpa using hR
      simp [optDeltaChars, parse_voice_string, hB', hR', matchDelta_nil,
        intVal_signChar_toDecimal, hrb]
  | none =>
    cases po with
    | none =>
      have hB := matchBase_append l1 l2 u1 u2 name [] hwf (fun c hc => by simp at hc)
      have hB' : matchBase (baseChars l1 l2 u1 u2 name) =
          some (baseChars l1 l2 u1 u2 name, []) := by simpa using hB
      simp [optDeltaChars, parse_voice_string, hB', matchDelta_nil]
    | some p =>
      have hys : ∀ c, (deltaChars p ('p')).head? = some c → isAlnumChar c = false := by
        intro c hc
        exact head_not_alnum_deltaChars p ('p') [] c (by simpa using hc)
      have hB := matchBase_append l1 l2 u1 u2 name (deltaChars p ('p')) hwf hys
      have hRnone : matchDelta ('r') ('R') (deltaChars p ('p')) = none := by
        rw [show deltaChars p ('p') = signChar p :: toDecimal p.natAbs ++ ('p') :: [] from rfl]
        exact matchDelta_none_of_marker _ _ _ _ _ _ (toDecimal_digits _)
          (by decide) (by decide) (by decide)
      have hP : matchDelta ('p') ('P') (deltaChars p ('p')) =
          some ((signChar p, toDecimal p.natAbs), []) := by
        rw [show deltaChars p ('p') = signChar p :: toDecimal p.natAbs ++ ('p') :: [] from rfl]
        exact matchDelta_append _ _ _ _ _ _ (signChar_cases p) (toDecimal_ne_nil _)
          (toDecimal_digits _) (Or.inl rfl) (by decide)
      have hpb : -99 ≤ p ∧ p ≤ 99 := by
        have := hp p rfl
        omega
      simp [optDeltaChars, parse_voice_string, hB, hRnone, hP,
        intVal_signChar_toDecimal, hpb]

theorem parse_voice_big_rate (l1 l2 u1 u2 : Char) (name : List Char) (s : Char)
    (ds : List Char) (hwf : wfBase l1 l2 u1 u2 name)
    (hs : s = '+' ∨ s = '-') (hne : ds ≠ []) (hds : ∀ c ∈ ds, c.isDigit = true)
    (hbig : 99 < digitsVal ds) :
    parse_voice_string (baseChars l1 l2 u1 u2 name ++ s :: ds ++ [('r')]) =
      (baseChars l1 l2 u1 u2 name, none, none) := by
  have hsa : isAlnumChar s = false := by
    rcases hs with h | h <;> rw [h] <;> decide
  have hys : ∀ c, (s :: (ds ++ [('r')])).head? = some c → isAlnumChar c = false := by
    intro c hc
    simp only [List.head?_cons, Option.some.injEq] at hc
    subst hc
    exact hsa
  have hB := matchBase_append l1 l2 u1 u2 name (s :: (ds ++ [('r')])) hwf hys
  have hR : matchDelta ('r') ('R') (s :: (ds ++ ('r') :: [])) = some ((s, ds), []) :=
    matchDelta_append _ _ _ _ _ _ hs hne hds (Or.inl rfl) (by decide)
  have hv : ¬(-99 ≤ intVal s ds ∧ intVal s ds ≤ 99) := by
    rcases hs with h | h <;> subst h
    · rw [intVal, if_neg (by decide)]
      omega
    · rw [intVal, if_pos rfl]
      omega
  have hform : baseChars l1 l2 u1 u2 name ++ s :: ds ++ [('r')] =
      baseChars l1 l2 u1 u2 name ++ (s :: (ds ++ [('r')])) := by simp
  rw [hform]
  simp [parse_voice_string, hB, hR, hv, matchDelta_nil]

theorem parse_voice_big_pitch (l1 l2 u1 u2 : Char) (name : List Char) (s : Char)
    (ds : List Char) (hwf : wfBase l1 l2 u1 u2 name)
    (hs : s = '+' ∨ s = '-') (hne : ds ≠ []) (hds : ∀ c ∈ ds, c.isDigit = true)
    (hbig : 99 < digitsVal ds) :
    parse_voice_string (baseChars l1 l2 u1 u2 name ++ s :: ds ++ [('p')]) =
      (baseChars l1 l2 u1 u2 name, none, none) := by
  have hsa : isAlnumChar s = false := by
    rcases hs with h | h <;> rw [h] <;> decide
  have hys : ∀ c, (s :: (ds ++ [('p')])).head? = some c → isAlnumChar c = false := by
    intro c hc
    simp only [List.head?_cons, Option.some.injEq] at hc
    subst hc
    exact hsa
  have hB := matchBase_append l1 l2 u1 u2 name (s :: (ds ++ [('p')])) hwf hys
  have hRnone : matchDelta ('r') ('R') (s :: (ds ++ ('p') :: [])) = none :=
    matchDelta_none_of_marker _ _ _ _ _ _ hds (by decide) (by decide) (by decide)
  have hP : matchDelta ('p') ('P') (s :: (ds ++ ('p') :: [])) = some ((s, ds), []) :=
    matchDelta_append _ _ _ _ _ _ hs hne hds (Or.inl rfl) (by decide)
  have hv : ¬(-99 ≤ intVal s ds ∧ intVal s ds ≤ 99) := by
    rcases hs with h | h <;> subst h
    · rw [intVal, if_neg (by decide)]
      omega
    · rw [intVal, if_pos rfl]
      omega
  have hform : baseChars l1 l2 u1 u2 name ++ s :: ds ++ [('p')] =
      baseChars l1 l2 u1 u2 name ++ (s :: (ds ++ [('p')])) := by simp
  rw [hform]
  simp [parse_voice_string, hB, hRnone, hP, hv]

example : parse_voice_string ("en-US-AnaNeural".data) = ("en-US-AnaNeural".data, none, none) := by
  decide

example : parse_voice_string ("en-US-AnaNeural-20r+10p".data) =
    ("en-US-AnaNeural".data, some (-20), some 10) := by decide

example : parse_voice_string ("en-US-AnaNeural-5p-13r".data) =
    ("en-US-AnaNeural".data, none, some (-5)) := by decide

example : parse_voice_string ("en-US-AnaNeural+100r".data) =
    ("en-US-AnaNeural".data, none, none) := by decide

example : parse_voice_string ("fable".data) = ("fable".data, none, none) := by decide

theorem roundHalfEven_intCast (z : Int) : roundHalfEven ((z : ℚ)) = z := by
  have h1 : Int.fdiv ((z : ℚ)).num (((z : ℚ)).den : Int) = z := by
    rw [Rat.num_intCast, Rat.den_intCast]
    simpa using Int.fdiv_one z
  simp only [roundHalfEven, h1]
  norm_num

theorem speed_to_rate_int (speed : ℚ) (z : Int) (h : (speed - 1) * 100 = (z : ℚ)) :
    speed_to_rate speed =
      (if 0 ≤ z then ('+') :: toDecimal z.natAbs else ('-') :: toDecimal z.natAbs) ++
        [('%')] := by
  simp only [speed_to_rate, h, roundHalfEven_intCast]

theorem save_audio_file_cleanup (tp : List Char) (c : Bool) (onm : List Char) :
    (save_audio_file tp true c onm).cleanupScheduled = [tp] := by
  cases c <;> rfl

theorem generate_audio_saveRequested (env : Env) (text voice response_format : List Char)
    (speed : ℚ) :
    (generate_audio env text voice response_format speed).saveRequested =
      (stripSave voice).1 := by
  simp only [generate_audio]
  split_ifs <;> rfl

theorem generate_audio_synthCall (env : Env) (text voice response_format : List Char)
    (speed : ℚ) :
    (generate_audio env text voice response_format speed).synthCall =
      some ((parse_voice_string (lookupDefault env.voiceMapping (stripSave voice).2)).1,
        computeRateValue speed
          (parse_voice_string (lookupDefault env.voiceMapping (stripSave voice).2)).2.1,
        computePitchValue
          (parse_voice_string (lookupDefault env.voiceMapping (stripSave voice).2)).2.2) := by
  simp only [generate_audio]
  split_ifs <;> rfl

/-- C7: `speed_to_rate` computes `(speed - 1) * 100` and formats it as a
signed integer percentage with an explicit sign and no decimal places; in
particular `speed_to_rate 1.0 = "+0%"`, `speed_to_rate 1.5 = "+50%"` and
`speed_to_rate 0.5 = "-50%"`. -/
theorem c7_speed_to_rate_format :
    speed_to_rate 1 = "+0%".data ∧
    speed_to_rate (3 / 2) = "+50%".data ∧
    speed_to_rate (1 / 2) = "-50%".data ∧
    (∀ s : ℚ, (speed_to_rate s).head? = some ('+') ∨
      (speed_to_rate s).head? = some ('-')) ∧
    (∀ s : ℚ, ('.') ∉ speed_to_rate s) := by
  refine ⟨?_, ?_, ?_, ?_, ?_⟩
  · rw [speed_to_rate_int 1 0 (by norm_num)]
    decide
  · rw [speed_to_rate_int (3 / 2) 50 (by norm_num)]
    decide
  · rw [speed_to_rate_int (1 / 2) (-50) (by norm_num)]
    decide
  · intro s
    by_cases h : 0 ≤ roundHalfEven ((s - 1) * 100)
    · left
      simp [speed_to_rate, h]
    · right
      simp [speed_to_rate, h]
  · intro s hmem
    by_cases h : 0 ≤ roundHalfEven ((s - 1) * 100)
    · simp only [speed_to_rate, if_pos h] at hmem
      rcases List.mem_append.mp hmem with hm | hm
      · rcases List.mem_cons.mp hm with hm | hm
        · exact absurd hm (by decide)
        · exact absurd (toDecimal_digits _ _ hm) (by decide)
      · exact absurd (List.mem_singleton.mp hm) (by decide)
    · simp only [speed_to_rate, if_neg h] at hmem
      rcases List.mem_append.mp hmem with hm | hm
      · rcases List.mem_cons.mp hm with hm | hm
        · exact absurd hm (by decide)
        · exact absurd (toDecimal_digits _ _ hm) (by decide)
      · exact absurd (List.mem_singleton.mp hm) (by decide)

/-- C3: for every voice string built from a well-formed base voice id (two
letters, hyphen, two uppercase letters, hyphen, non-empty alphanumeric name)
optionally followed by a signed rate delta with marker `r` and a signed pitch
delta with marker `p`, parsing with `parse_voice_string` recovers exactly the
base voice id, and every delta of magnitude at most 99 round-trips to the
same signed integer. -/
theorem c3_parse_roundtrip (l1 l2 u1 u2 : Char) (name : List Char) (ro po : Option Int)
    (hwf : wfBase l1 l2 u1 u2 name)
    (hr : ∀ v, ro = some v → v.natAbs ≤ 99) (hp : ∀ v, po = some v → v.natAbs ≤ 99) :
    parse_voice_string
        (baseChars l1 l2 u1 u2 name ++ optDeltaChars ro ('r') ++ optDeltaChars po ('p')) =
      (baseChars l1 l2 u1 u2 name, ro, po) :=
  parse_voice_append_opt l1 l2 u1 u2 name ro po hwf hr hp

theorem c3_parse_roundtrip_witness :
    parse_voice_string
        (baseChars ('e') ('n') ('U') ('S') ("AnaNeural".data) ++
          optDeltaChars (some 10) ('r') ++ optDeltaChars (some (-5)) ('p')) =
      (baseChars ('e') ('n') ('U') ('S') ("AnaNeural".data), some 10, some (-5)) :=
  c3_parse_roundtrip ('e') ('n') ('U') ('S') ("AnaNeural".data) (some 10) (some (-5))
    (by decide)
    (fun v hv => by injection hv with hv; rw [← hv]; decide)
    (fun v hv => by injection hv with hv; rw [← hv]; decide)

/-- C10: `parse_voice_string` matches only a prefix of its input: a fully
matched voice string followed by arbitrary trailing characters parses to the
same result, the trailing text being silently ignored; in particular a rate
delta written after a pitch delta, as in `"en-US-AnaNeural-5p-13r"`, is
dropped, yielding only the pitch delta. -/
theorem c10_prefix_matching (l1 l2 u1 u2 : Char) (name : List Char) (r p : Int)
    (t : List Char) (hwf : wfBase l1 l2 u1 u2 name)
    (hr : r.natAbs ≤ 99) (hp : p.natAbs ≤ 99) :
    parse_voice_string
        (baseChars l1 l2 u1 u2 name ++ deltaChars r ('r') ++ deltaChars p ('p') ++ t) =
      (baseChars l1 l2 u1 u2 name, some r, some p) ∧
    parse_voice_string ("en-US-AnaNeural-5p-13r".data) =
      ("en-US-AnaNeural".data, none, some (-5)) :=
  ⟨parse_voice_append_both l1 l2 u1 u2 name r p t hwf hr hp, by decide⟩

theorem c10_prefix_matching_witness :
    (parse_voice_string
        (baseChars ('e') ('n') ('U') ('S') ("Ana".data) ++ deltaChars 7 ('r') ++
          deltaChars (-8) ('p') ++ ("-junk???".data)) =
      (baseChars ('e') ('n') ('U') ('S') ("Ana".data), some 7, some (-8))) ∧
    parse_voice_string ("en-US-AnaNeural-5p-13r".data) =
      ("en-US-AnaNeural".data, none, some (-5)) :=
  c10_prefix_matching ('e') ('n') ('U') ('S') ("Ana".data) 7 (-8) ("-junk???".data)
    (by decide) (by decide) (by decide)

/-- C4: a rate or pitch delta whose magnitude exceeds 99 is discarded by
`parse_voice_string` — returned as absent, not clamped — while the base voice
id is still returned; the pipeline then uses the defaults for the missing
parameter (the speed-derived rate string, the `"+0Hz"` pitch string). -/
theorem c4_out_of_range_discarded (l1 l2 u1 u2 : Char) (name : List Char) (s : Char)
    (ds : List Char) (hwf : wfBase l1 l2 u1 u2 name)
    (hs : s = '+' ∨ s = '-') (hne : ds ≠ []) (hds : ∀ c ∈ ds, c.isDigit = true)
    (hbig : 99 < digitsVal ds) :
    parse_voice_string (baseChars l1 l2 u1 u2 name ++ s :: ds ++ [('r')]) =
      (baseChars l1 l2 u1 u2 name, none, none) ∧
    parse_voice_string (baseChars l1 l2 u1 u2 name ++ s :: ds ++ [('p')]) =
      (baseChars l1 l2 u1 u2 name, none, none) ∧
    (∀ speed : ℚ, computeRateValue speed none = speed_to_rate speed) ∧
    computePitchValue none = "+0Hz".data :=
  ⟨parse_voice_big_rate l1 l2 u1 u2 name s ds hwf hs hne hds hbig,
   parse_voice_big_pitch l1 l2 u1 u2 name s ds hwf hs hne hds hbig,
   fun _ => rfl, rfl⟩

theorem c4_out_of_range_discarded_witness :
    parse_voice_string
        (baseChars ('e') ('n') ('U') ('S') ("AnaNeural".data) ++ ('+') :: ("100".data) ++ [('r')]) =
      (baseChars ('e') ('n') ('U') ('S') ("AnaNeural".data), none, none) ∧
    parse_voice_string
        (baseChars ('e') ('n') ('U') ('S') ("AnaNeural".data) ++ ('+') :: ("100".data) ++ [('p')]) =
      (baseChars ('e') ('n') ('U') ('S') ("AnaNeural".data), none, none) ∧
    (∀ speed : ℚ, computeRateValue speed none = speed_to_rate speed) ∧
    computePitchValue none = "+0Hz".data :=
  c4_out_of_range_discarded ('e') ('n') ('U') ('S') ("AnaNeural".data) ('+') ("100".data)
    (by decide) (Or.inl rfl) (by decide) (by decide) (by decide)

/-- C5: a voice string ending in the literal suffix `+s` makes the pipeline
set `saveOutput = true`, the suffix is removed before alias resolution and
parsing, and the resulting voice spec equals the spec obtained from the same
string with the suffix removed. -/
theorem c5_save_suffix (m : List (List Char × List Char)) (w : List Char)
    (env : Env) (text response_format : List Char) (speed : ℚ) :
    stripSave (w ++ "+s".data) = (true, w) ∧
    voiceSpecOf m (w ++ "+s".data) = (true, parse_voice_string (lookupDefault m w)) ∧
    (generate_audio env text (w ++ "+s".data) response_format speed).saveRequested =
      true := by
  have hps : ("+s".data : List Char) = ('+') :: ('s') :: [] := rfl
  have h1 : stripSave (w ++ ('+') :: ('s') :: []) = (true, w) := by
    simp [stripSave, List.reverse_append]
  refine ⟨by rw [hps]; exact h1, ?_, ?_⟩
  · rw [hps]
    simp [voiceSpecOf, h1]
  · rw [generate_audio_saveRequested, hps, h1]

/-- C6: the rate string handed to the synthesis provider is the parsed rate
delta formatted with an explicit sign and `%` whenever a rate delta is
present (overriding the speed multiplier); when no rate delta is present it
is derived from the speed multiplier via `speed_to_rate`; and when no pitch
delta is present the pitch string is exactly `"+0Hz"`. -/
theorem c6_rate_pitch_strings (env : Env) (text voice response_format : List Char)
    (speed : ℚ) (b : List Char) (rc pc : Option Int)
    (hparse : parse_voice_string (lookupDefault env.voiceMapping (stripSave voice).2) =
      (b, rc, pc)) :
    (generate_audio env text voice response_format speed).synthCall =
      some (b, computeRateValue speed rc, computePitchValue pc) ∧
    (∀ r : Int, rc = some r → 0 ≤ r →
      computeRateValue speed rc = ('+') :: toDecimal r.natAbs ++ "%".data) ∧
    (∀ r : Int, rc = some r → r < 0 →
      computeRateValue speed rc = ('-') :: toDecimal r.natAbs ++ "%".data) ∧
    (rc = none → computeRateValue speed rc = speed_to_rate speed) ∧
    (pc = none → computePitchValue pc = "+0Hz".data) := by
  refine ⟨?_, ?_, ?_, ?_, ?_⟩
  · rw [generate_audio_synthCall, hparse]
  · intro r hr hge
    subst hr
    simp only [computeRateValue, intChars]
    rw [if_pos hge, if_neg (by omega)]
    rfl
  · intro r hr hlt
    subst hr
    simp only [computeRateValue, intChars]
    rw [if_neg (by omega), if_pos hlt]
    rfl
  · intro hr
    subst hr
    rfl
  · intro hp
    subst hp
    rfl

theorem c6_rate_pitch_strings_witness :
    (generate_audio env0 ("t".data) ("en-US-AnaNeural+10r".data) ("mp3".data) 1).synthCall =
      some ("en-US-AnaNeural".data, computeRateValue 1 (some 10), computePitchValue none) ∧
    (∀ r : Int, (some 10 : Option Int) = some r → 0 ≤ r →
      computeRateValue 1 (some 10) = ('+') :: toDecimal r.natAbs ++ "%".data) ∧
    (∀ r : Int, (some 10 : Option Int) = some r → r < 0 →
      computeRateValue 1 (some 10) = ('-') :: toDecimal r.natAbs ++ "%".data) ∧
    ((some 10 : Option Int) = none → computeRateValue 1 (some 10) = speed_to_rate 1) ∧
    ((none : Option Int) = none → computePitchValue none = "+0Hz".data) :=
  c6_rate_pitch_strings env0 ("t".data) ("en-US-AnaNeural+10r".data) ("mp3".data) 1
    ("en-US-AnaNeural".data) (some 10) none (by decide)

/-- C8: a request for the provider-native mp3 format never invokes the
transcoder; a request for a non-native format with the transcoding tool
unavailable logs the warning and returns the untouched native artifact with
no error raised. -/
theorem c8_native_never_transcodes (env : Env) (text voice : List Char) (speed : ℚ) :
    ((generate_audio env text voice ("mp3".data) speed).ffmpegInvoked = false ∧
      (generate_audio env text voice ("mp3".data) speed).ffmpegCmd = none) ∧
    (∀ response_format, response_format ≠ "mp3".data →
      env.ffmpegInstalled = false → env.synthOk = true →
      (generate_audio env text voice response_format speed).result =
        Except.ok env.tempName ∧
      (generate_audio env text voice response_format speed).warnedNoFfmpeg = true ∧
      (generate_audio env text voice response_format speed).ffmpegInvoked = false) := by
  constructor
  · by_cases hso : env.synthOk = false
    · exact ⟨by simp [generate_audio, hso], by simp [generate_audio, hso]⟩
    · by_cases hsv : (stripSave voice).1 = true
      · exact ⟨by simp [generate_audio, hso, hsv], by simp [generate_audio, hso, hsv]⟩
      · exact ⟨by simp [generate_audio, hso, hsv], by simp [generate_audio, hso, hsv]⟩
  · intro response_format hne hff hs
    refine ⟨?_, ?_, ?_⟩ <;> simp [generate_audio, hne, hff, hs]

theorem c8_native_never_transcodes_witness :
    ((generate_audio envNoFF ("t".data) ("en-US-AnaNeural".data) ("mp3".data) 1).ffmpegInvoked =
        false ∧
      (generate_audio envNoFF ("t".data) ("en-US-AnaNeural".data) ("mp3".data) 1).ffmpegCmd =
        none) ∧
    ((generate_audio envNoFF ("t".data) ("en-US-AnaNeural".data) ("aac".data) 1).result =
        Except.ok envNoFF.tempName ∧
      (generate_audio envNoFF ("t".data) ("en-US-AnaNeural".data) ("aac".data) 1).warnedNoFfmpeg =
        true ∧
      (generate_audio envNoFF ("t".data) ("en-US-AnaNeural".data) ("aac".data) 1).ffmpegInvoked =
        false) :=
  ⟨(c8_native_never_transcodes envNoFF ("t".data) ("en-US-AnaNeural".data) 1).1,
   (c8_native_never_transcodes envNoFF ("t".data) ("en-US-AnaNeural".data) 1).2
     ("aac".data) (by decide) rfl rfl⟩

/-- C9: `generate_speech` never propagates an exception: every failure of the
generation coroutine is mapped to the overall-failure value `none`, every
success to the artifact path; and a missing transcoder is absorbed rather
than aborting the pipeline (a successful synthesis still yields a path). -/
theorem c9_no_exception_escape (env : Env) (text voice response_format : List Char)
    (speed : ℚ) :
    ((∃ p, generate_speech env text voice response_format speed = some p ∧
        (generate_audio env text voice response_format speed).result = Except.ok p) ∨
      (generate_speech env text voice response_format speed = none ∧
        ∃ e, (generate_audio env text voice response_format speed).result =
          Except.error e)) ∧
    (env.ffmpegInstalled = false → env.synthOk = true →
      generate_speech env text voice response_format speed = some env.tempName) := by
  constructor
  · cases h : (generate_audio env text voice response_format speed).result with
    | ok p => exact Or.inl ⟨p, by simp [generate_speech, h], rfl⟩
    | error e => exact Or.inr ⟨by simp [generate_speech, h], e, rfl⟩
  · intro hff hs
    by_cases hmp3 : response_format = "mp3".data
    · by_cases hsv : (stripSave voice).1 = true <;>
        simp [generate_speech, generate_audio, hmp3, hsv, hs]
    · simp [generate_speech, generate_audio, hmp3, hff, hs]

theorem c9_no_exception_escape_witness :
    generate_speech envNoFF ("t".data) ("en-US-AnaNeural".data) ("aac".data) 1 =
      some envNoFF.tempName :=
  (c9_no_exception_escape envNoFF ("t".data) ("en-US-AnaNeural".data) ("aac".data) 1).2
    rfl rfl

/-- C2 (code bug): for response format wav with the transcoder available, the
argv list built by the code still contains the `-b:a` flag followed by the
Python `None` value — the conditional expression yields `None` instead of
omitting the flag pair — so the subprocess invocation raises `TypeError`, the
external tool is never started and the conversion never succeeds, even though
the codec and container are correctly mapped to `pcm_s16le` and `wav`. -/
theorem c2_wav_bitrate_bug :
    codecFor ("wav".data) = "pcm_s16le".data ∧
    containerFor ("wav".data) = "wav".data ∧
    (ffmpeg_command env0.tempName ("wav".data) env0.convName)[5]? =
      some (some ("-b:a".data)) ∧
    (ffmpeg_command env0.tempName ("wav".data) env0.convName)[6]? = some none ∧
    none ∈ ffmpeg_command env0.tempName ("wav".data) env0.convName ∧
    (generate_audio env0 ("hello".data) ("en-US-AnaNeural".data) ("wav".data) 1).result =
      Except.error GenError.typeError ∧
    (generate_audio env0 ("hello".data) ("en-US-AnaNeural".data) ("wav".data) 1).ffmpegInvoked =
      false := by
  refine ⟨by decide, by decide, by decide, by decide, by decide, by decide, by decide⟩

/-- C1 counterexample: in a successful transcoding request (format aac, all
tools available, save not requested) the synthesis temp file is created and
tracked but never handed to any cleanup — neither by the handler nor by the
spec-modelled top-level caller — and stays in the tracked set, contradicting
the claimed invariant that every temp artifact is eventually removed. -/
theorem c1_counterexample_leak :
    env0.tempName ∈
      (generate_audio env0 ("hi".data) ("en-US-AnaNeural".data) ("aac".data) 1).created ∧
    env0.tempName ∉
      totalCleanup (generate_audio env0 ("hi".data) ("en-US-AnaNeural".data) ("aac".data) 1) ∧
    env0.tempName ∈
      (generate_audio env0 ("hi".data) ("en-US-AnaNeural".data) ("aac".data) 1).tempFilesAfter := by
  refine ⟨by decide, by decide, by decide⟩

/-- C1 amended: for every request that returns successfully, every temporary
artifact except the synthesis temp file of a non-mp3 request is handed to the
delayed reaper — by the handler's spawned save task or by the spec-modelled
top-level caller; the synthesis temp file of a non-mp3 request is the one
artifact that can escape cleanup. -/
theorem c1_amended_cleanup (env : Env) (text voice response_format : List Char)
    (speed : ℚ) (p : List Char)
    (hok : (generate_audio env text voice response_format speed).result = Except.ok p) :
    ∀ x ∈ (generate_audio env text voice response_format speed).created,
      x ∈ totalCleanup (generate_audio env text voice response_format speed) ∨
        (x = env.tempName ∧ response_format ≠ "mp3".data) := by
  by_cases hso : env.synthOk = false
  · simp [generate_audio, hso] at hok
  · by_cases hmp3 : response_format = "mp3".data
    · subst hmp3
      by_cases hsv : (stripSave voice).1 = true
      · intro x hx
        left
        simp [generate_audio, hso, hsv] at hx
        subst hx
        simp [totalCleanup, generate_audio, hso, hsv, topLevelCleanup,
          save_audio_file_cleanup]
      · intro x hx
        left
        simp [generate_audio, hso, hsv] at hx
        subst hx
        simp [totalCleanup, generate_audio, hso, hsv, topLevelCleanup]
    · by_cases hff : env.ffmpegInstalled = false
      · intro x hx
        simp [generate_audio, hso, hmp3, hff] at hx
        subst hx
        exact Or.inr ⟨rfl, hmp3⟩
      · by_cases hcmd :
          (ffmpeg_command env.tempName response_format env.convName).any Option.isNone = true
        · simp [generate_audio, hso, hmp3, hff, hcmd] at hok
        · by_cases hte : env.transcodeExitOk = false
          · simp [generate_audio, hso, hmp3, hff, hcmd, hte] at hok
          · by_cases hsv : (stripSave voice).1 = true
            · intro x hx
              simp [generate_audio, hso, hmp3, hff, hcmd, hte, hsv] at hx
              rcases hx with rfl | rfl
              · exact Or.inr ⟨rfl, hmp3⟩
              · left
                simp [totalCleanup, generate_audio, hso, hmp3, hff, hcmd, hte, hsv,
                  topLevelCleanup, save_audio_file_cleanup]
            · intro x hx
              simp [generate_audio, hso, hmp3, hff, hcmd, hte, hsv] at hx
              rcases hx with rfl | rfl
              · exact Or.inr ⟨rfl, hmp3⟩
              · left
                simp [totalCleanup, generate_audio, hso, hmp3, hff, hcmd, hte, hsv,
                  topLevelCleanup]

theorem c1_amended_cleanup_witness :
    (generate_audio env0 ("hi".data) ("en-US-AnaNeural".data) ("mp3".data) 1).result =
      Except.ok env0.tempName ∧
    ∀ x ∈ (generate_audio env0 ("hi".data) ("en-US-AnaNeural".data) ("mp3".data) 1).created,
      x ∈ totalCleanup
          (generate_audio env0 ("hi".data) ("en-US-AnaNeural".data) ("mp3".data) 1) ∨
        (x = env0.tempName ∧ ("mp3".data : List Char) ≠ "mp3".data) :=
  ⟨by decide,
   c1_amended_cleanup env0 ("hi".data) ("en-US-AnaNeural".data) ("mp3".data) 1
     env0.tempName (by decide)⟩
